import Mathlib

/-!
Shallow embedding of the SonicWave batch audio conversion pipeline
(src/assets/audio-process.js, src/assets/file-handler.js,
src/assets/ffmpeg-utils.js).  Pure functions of the JavaScript source are
translated into Lean functions; the stateful ffmpeg.wasm engine workspace is
modelled as an explicit list of buffer names threaded through the job run,
with external failures (write, exec, read) decided by an explicit oracle.
-/

/-- Model of a browser File value: only the two fields the pipeline reads. -/
structure JsFile where
  name : String
  type : String
deriving DecidableEq, Repr

/-- Lowercasing of a string, modelling the JavaScript toLowerCase call on the
ASCII data these functions handle. -/
def toLowerStr (s : String) : String := String.mk (s.data.map Char.toLower)

/-- Index of the last dot in a character list, mirroring the JavaScript
expression filename.lastIndexOf applied to a dot (none when there is no dot,
which JavaScript reports as -1). -/
def lastDotIdx : List Char → Option Nat
  | [] => none
  | c :: cs =>
    match lastDotIdx cs with
    | some i => some (i + 1)
    | none => if c = '.' then some 0 else none

/-- getFileExtension from file-handler.js lines 120-122: the substring starting
one past the last dot (the whole name when there is no dot, since the JavaScript
index -1 plus 1 is 0), lowercased. -/
def getFileExtension (filename : String) : String :=
  let start : Nat :=
    match lastDotIdx filename.data with
    | some i => i + 1
    | none => 0
  String.mk ((filename.data.drop start).map Char.toLower)

/-- Extension whitelist from isAudioFile in file-handler.js. -/
def validExtensions : List String := ["mp3", "wav", "m4a", "aac", "ogg", "flac"]

/-- Character-level model of the JavaScript startsWith string method. -/
def startsWithStr (pre s : String) : Bool := pre.data.isPrefixOf s.data

/-- isAudioFile from file-handler.js lines 38-44: extension is in the whitelist,
or the MIME type starts with the audio prefix. -/
def isAudioFile (f : JsFile) : Bool :=
  validExtensions.contains (toLowerStr (getFileExtension f.name)) ||
    startsWithStr "audio/" f.type

/-- One entry of the formatConfig table: container extension, codec name, and
whether the format accepts a bitrate argument. -/
structure FormatConfig where
  ext : String
  codec : String
  supportsBitrate : Bool
deriving DecidableEq, Repr

/-- Option record passed to convertAudioFormat: each field may be absent
(undefined in JavaScript). -/
structure ConvOptions where
  channels : Option String := none
  samplerate : Option String := none
  bitrate : Option String := none
  compressionLevel : Option String := none
deriving DecidableEq, Repr

/-- JavaScript truthiness of an optional string: undefined and the empty string
are falsy, every other string is truthy. -/
def truthy : Option String → Bool
  | none => false
  | some s => !(s == "")

/-- JavaScript or-default idiom "o || d" on an optional string. -/
def orDefault (o : Option String) (d : String) : String :=
  match o with
  | some s => if s = "" then d else s
  | none => d

/-- Engine input buffer name used by compressSingleFile and convertAudioFormat:
the fixed string built from the input file extension (audio-process.js lines
12-13 and 143-144). -/
def inputNameOf (f : JsFile) : String := "input." ++ getFileExtension f.name

/-- Engine output buffer name used by compressSingleFile and convertAudioFormat:
the fixed string built from the target container extension (audio-process.js
lines 15 and 146). -/
def outputNameOf (cfg : FormatConfig) : String := "output." ++ cfg.ext

/-- Command vector built by compressSingleFile (audio-process.js lines 21-46).
The DOM select values ac, ar, ba are strings, with the empty string meaning
unset; the codec selector is pushed before the bitrate argument. -/
def compressCommand (outputFormatId : String) (cfg : FormatConfig)
    (inputName outputName ac ar ba : String) : List String :=
  ["-i", inputName]
    ++ (if ac ≠ "" then ["-ac", ac] else [])
    ++ (if ar ≠ "" then ["-ar", ar] else [])
    ++ ["-acodec", cfg.codec]
    ++ (if ba ≠ "" ∧ cfg.supportsBitrate then ["-b:a", ba] else [])
    ++ (if outputFormatId = "flac" then ["-compression_level", "5"]
        else if outputFormatId = "aac" then ["-strict", "experimental"] else [])
    ++ [outputName]

/-- Command vector built by convertAudioFormat (audio-process.js lines 153-172).
In this path the bitrate argument is pushed before the codec selector. -/
def convertCommand (targetFormat : String) (cfg : FormatConfig)
    (inputName outputName : String) (o : ConvOptions) : List String :=
  ["-i", inputName]
    ++ (if truthy o.channels then ["-ac", o.channels.getD ""] else [])
    ++ (if truthy o.samplerate then ["-ar", o.samplerate.getD ""] else [])
    ++ (if truthy o.bitrate ∧ cfg.supportsBitrate then ["-b:a", o.bitrate.getD ""] else [])
    ++ ["-acodec", cfg.codec]
    ++ (if targetFormat = "flac" then ["-compression_level", orDefault o.compressionLevel "5"]
        else if targetFormat = "aac" then ["-strict", "experimental"] else [])
    ++ [outputName]

/-- Command vector in the fixed order the specification claims for the
compressSingleFile path, written from the words of the claim: input reference,
optional channel count, optional sample rate, codec selector, optional bitrate,
format specific fixed arguments, output reference. -/
def claimOrderCompressCommand (outputFormatId : String) (cfg : FormatConfig)
    (inputName outputName ac ar ba : String) : List String :=
  ["-i", inputName]
    ++ (if ac ≠ "" then ["-ac", ac] else [])
    ++ (if ar ≠ "" then ["-ar", ar] else [])
    ++ ["-acodec", cfg.codec]
    ++ (if ba ≠ "" ∧ cfg.supportsBitrate then ["-b:a", ba] else [])
    ++ (if outputFormatId = "flac" then ["-compression_level", "5"]
        else if outputFormatId = "aac" then ["-strict", "experimental"] else [])
    ++ [outputName]

/-- Command vector in the fixed order the specification claims for the
convertAudioFormat path, written from the words of the claim: codec selector
before the optional bitrate argument. -/
def claimOrderConvertCommand (targetFormat : String) (cfg : FormatConfig)
    (inputName outputName : String) (o : ConvOptions) : List String :=
  ["-i", inputName]
    ++ (if truthy o.channels then ["-ac", o.channels.getD ""] else [])
    ++ (if truthy o.samplerate then ["-ar", o.samplerate.getD ""] else [])
    ++ ["-acodec", cfg.codec]
    ++ (if truthy o.bitrate ∧ cfg.supportsBitrate then ["-b:a", o.bitrate.getD ""] else [])
    ++ (if targetFormat = "flac" then ["-compression_level", orDefault o.compressionLevel "5"]
        else if targetFormat = "aac" then ["-strict", "experimental"] else [])
    ++ [outputName]

/-- Failure oracle for one engine job: whether the write succeeds, whether the
exec succeeds, whether a failing exec leaves a partial output buffer behind,
and whether the readback succeeds. -/
structure Fate where
  writeOk : Bool
  execOk : Bool
  execPartialOutput : Bool
  readOk : Bool
deriving DecidableEq, Repr

/-- Engine boundary failure kinds. -/
inductive EngErr
  | writeError
  | execError
  | readError
deriving DecidableEq, Repr

/-- Result of one job run. -/
inductive JobOutcome
  | success (outputName : String)
  | failure (e : EngErr)
deriving DecidableEq, Repr

/-- Trace event for one call into the ffmpeg.wasm engine. -/
inductive EngineEvent
  | writeFile (name : String)
  | exec (argv : List String)
  | readFile (name : String)
  | deleteFile (name : String)
deriving DecidableEq, Repr

/-- Predicate selecting deleteFile events in a trace. -/
def isDeleteEvent : EngineEvent → Bool
  | .deleteFile _ => true
  | _ => false

/-- Cleanup block of compressSingleFile (audio-process.js lines 71-77) and of
convertAudioFormat (lines 197-203): both deleteFile calls sit in one try block
whose catch swallows the error.  A deleteFile call raises exactly when the name
is absent from the workspace (FS unlink semantics); when the first call raises,
the second is never attempted. -/
def cleanupPhase (ws : List String) (inN outN : String) :
    List String × List EngineEvent :=
  if inN ∈ ws then ((ws.erase inN).erase outN, [.deleteFile inN, .deleteFile outN])
  else (ws, [.deleteFile inN])

/-- Body of one engine job before cleanup: writeFile the input buffer, exec the
command (creating the output buffer on success, and possibly a partial output
buffer on failure), then readFile the output buffer.  Returns the job outcome,
the workspace, and the trace of engine calls made. -/
def bodyPhase (fate : Fate) (inN outN : String) (argv : List String)
    (ws : List String) : JobOutcome × List String × List EngineEvent :=
  if fate.writeOk then
    let ws1 := if inN ∈ ws then ws else inN :: ws
    if fate.execOk then
      let ws2 := if outN ∈ ws1 then ws1 else outN :: ws1
      if fate.readOk then
        (.success outN, ws2, [.writeFile inN, .exec argv, .readFile outN])
      else
        (.failure .readError, ws2, [.writeFile inN, .exec argv, .readFile outN])
    else
      let ws2 := if fate.execPartialOutput then (if outN ∈ ws1 then ws1 else outN :: ws1)
                 else ws1
      (.failure .execError, ws2, [.writeFile inN, .exec argv])
  else (.failure .writeError, ws, [.writeFile inN])

/-- Whole try-finally shape shared by compressSingleFile and
convertAudioFormat: run the body, then always run the cleanup block once on
whatever state the body reached. -/
def engineJobRun (fate : Fate) (inN outN : String) (argv : List String)
    (ws : List String) : JobOutcome × List String × List EngineEvent :=
  let b := bodyPhase fate inN outN argv ws
  let c := cleanupPhase b.2.1 inN outN
  (b.1, c.1, b.2.2 ++ c.2)

/-- compressSingleFile from audio-process.js lines 11-78, with the engine
failures decided by the fate oracle. -/
def compressSingleFile (fate : Fate) (file : JsFile) (outputFormatId : String)
    (cfg : FormatConfig) (ac ar ba : String) (ws : List String) :
    JobOutcome × List String × List EngineEvent :=
  engineJobRun fate (inputNameOf file) (outputNameOf cfg)
    (compressCommand outputFormatId cfg (inputNameOf file) (outputNameOf cfg) ac ar ba) ws

/-- convertAudioFormat from audio-process.js lines 142-204, with the engine
failures decided by the fate oracle. -/
def convertAudioFormat (fate : Fate) (file : JsFile) (targetFormat : String)
    (cfg : FormatConfig) (o : ConvOptions) (ws : List String) :
    JobOutcome × List String × List EngineEvent :=
  engineJobRun fate (inputNameOf file) (outputNameOf cfg)
    (convertCommand targetFormat cfg (inputNameOf file) (outputNameOf cfg) o) ws

/-- compressSingleFileWithRetry from audio-process.js lines 86-99, with each
call to compressSingleFile abstracted by an oracle att giving the outcome of
attempt number k.  The second argument is maxRetries.  Returns the final
outcome together with the number of attempts made. -/
def compressSingleFileWithRetry {α : Type} (att : Nat → Except String α) :
    Nat → Except String α × Nat
  | 0 => (att 0, 1)
  | n + 1 =>
    match att 0 with
    | .ok r => (.ok r, 1)
    | .error _ =>
      let p := compressSingleFileWithRetry (fun k => att (k + 1)) n
      (p.1, p.2 + 1)

/-- One entry of the batch result lists: the source file name plus the payload
(the conversion result on success, the error message on failure). -/
structure BatchItem where
  file : String
  payload : String
deriving DecidableEq, Repr

/-- Batch report returned by compressMultipleFiles: the results and errors
lists, each in input order. -/
structure BatchReport where
  results : List BatchItem
  errors : List BatchItem
deriving DecidableEq, Repr

/-- compressMultipleFiles from audio-process.js lines 106-133: one try-catch
per file, pushing into results on success and errors on failure, never
aborting.  Each file gets exactly one call to compressSingleFile, abstracted
as attempt number 0 of the per-file oracle att. -/
def compressMultipleFiles (att : JsFile → Nat → Except String String) :
    List JsFile → BatchReport
  | [] => ⟨[], []⟩
  | f :: fs =>
    let rest := compressMultipleFiles att fs
    match att f 0 with
    | .ok r => ⟨⟨f.name, r⟩ :: rest.results, rest.errors⟩
    | .error e => ⟨rest.results, ⟨f.name, e⟩ :: rest.errors⟩

/-- Bool test whether a single attempt outcome is a success. -/
def attemptOk (r : Except String String) : Bool :=
  match r with
  | .ok _ => true
  | .error _ => false

/-- Metadata record built by parseMetadata, one string per field. -/
structure Metadata where
  duration : String
  sampleRate : String
  channels : String
  bitrate : String
deriving DecidableEq, Repr

/-- Unknown field marker used by parseMetadata. -/
def unknownField : String := "未知"

/-- Maximal run of ASCII digits at the front of a character list, together with
the remainder: the backtracking-free reading of a greedy digit group followed
by a non-digit literal in the regular expressions below. -/
def digitSpan (l : List Char) : List Char × List Char := l.span (fun c => c.isDigit)

/-- Match, at the current position, the duration pattern of parseMetadata:
the literal marker, then two digits, colon, two digits, colon, two digits, dot,
one or more digits; yields capture group 1 (the timestamp). -/
def matchDurationAt (l : List Char) : Option (List Char) :=
  if ("Duration: ".data).isPrefixOf l then
    match l.drop 10 with
    | d1 :: d2 :: c1 :: d3 :: d4 :: c2 :: d5 :: d6 :: c3 :: rest =>
      if d1.isDigit ∧ d2.isDigit ∧ c1 = ':' ∧ d3.isDigit ∧ d4.isDigit ∧ c2 = ':' ∧
          d5.isDigit ∧ d6.isDigit ∧ c3 = '.' then
        let p := digitSpan rest
        if p.1.isEmpty then none
        else some (d1 :: d2 :: c1 :: d3 :: d4 :: c2 :: d5 :: d6 :: c3 :: p.1)
      else none
    | _ => none
  else none

/-- Match, at the current position, the sample rate pattern of parseMetadata:
one or more digits followed by the frequency unit; yields capture group 1. -/
def matchHzAt (l : List Char) : Option (List Char) :=
  let p := digitSpan l
  if p.1.isEmpty then none
  else if (" Hz".data).isPrefixOf p.2 then some p.1
  else none

/-- Match, at the current position, the channel pattern of parseMetadata: the
alternation of the two literal tokens and a digit run followed by the channel
count word, tried in source order; yields capture group 1. -/
def matchChannelsAt (l : List Char) : Option (List Char) :=
  if ("mono".data).isPrefixOf l then some ("mono".data)
  else if ("stereo".data).isPrefixOf l then some ("stereo".data)
  else
    let p := digitSpan l
    if p.1.isEmpty then none
    else if (" channels".data).isPrefixOf p.2 then some (p.1 ++ " channels".data)
    else none

/-- Match, at the current position, the bitrate pattern of parseMetadata: one
or more digits, an optional dot-and-digits fraction (tried greedily first, as
the regular expression engine does), then the kilobit unit; yields capture
group 1. -/
def matchKbpsAt (l : List Char) : Option (List Char) :=
  let p := digitSpan l
  if p.1.isEmpty then none
  else
    match p.2 with
    | '.' :: rest =>
      let q := digitSpan rest
      if ¬q.1.isEmpty ∧ (" kbps".data).isPrefixOf q.2 then some (p.1 ++ '.' :: q.1)
      else if (" kbps".data).isPrefixOf p.2 then some p.1
      else none
    | _ => if (" kbps".data).isPrefixOf p.2 then some p.1 else none

/-- Leftmost-match scan: try the pattern at each position from the left, as the
JavaScript match call does for a regular expression without the global flag. -/
def scanFor (m : List Char → Option (List Char)) : List Char → Option (List Char)
  | [] => none
  | c :: cs =>
    match m (c :: cs) with
    | some r => some r
    | none => scanFor m cs

/-- Duration field extraction of parseMetadata, on its own. -/
def durationField (logs : String) : String :=
  match scanFor matchDurationAt logs.data with
  | some cs => String.mk cs
  | none => unknownField

/-- Sample rate field extraction of parseMetadata, on its own: the captured
digits with the unit appended back. -/
def sampleRateField (logs : String) : String :=
  match scanFor matchHzAt logs.data with
  | some cs => String.mk cs ++ " Hz"
  | none => unknownField

/-- Channel field extraction of parseMetadata, on its own. -/
def channelsField (logs : String) : String :=
  match scanFor matchChannelsAt logs.data with
  | some cs => String.mk cs
  | none => unknownField

/-- Bitrate field extraction of parseMetadata, on its own: the captured number
with the unit appended back. -/
def bitrateField (logs : String) : String :=
  match scanFor matchKbpsAt logs.data with
  | some cs => String.mk cs ++ " kbps"
  | none => unknownField

/-- parseMetadata from file-handler.js lines 51-85 (the identical copy lives in
ffmpeg-utils.js lines 232-266): initialize every field to the unknown marker,
then overwrite each field for which its pattern matches, one field at a time
exactly as the source does. -/
def parseMetadata (logs : String) : Metadata :=
  let m0 : Metadata := ⟨unknownField, unknownField, unknownField, unknownField⟩
  let m1 := match scanFor matchDurationAt logs.data with
            | some cs => { m0 with duration := String.mk cs }
            | none => m0
  let m2 := match scanFor matchHzAt logs.data with
            | some cs => { m1 with sampleRate := String.mk cs ++ " Hz" }
            | none => m1
  let m3 := match scanFor matchChannelsAt logs.data with
            | some cs => { m2 with channels := String.mk cs }
            | none => m2
  match scanFor matchKbpsAt logs.data with
  | some cs => { m3 with bitrate := String.mk cs ++ " kbps" }
  | none => m3

/-- parseAudioMetadata from file-handler.js lines 279-316: write the input,
record the current log length, exec the probe (whose own failure is swallowed
and which appends the given segment to the shared log), then parse the slice
of the log from the recorded offset to the end.  When the write fails the
outer catch returns null.  Returns the metadata and the final log. -/
def parseAudioMetadata (writeOk : Bool) (segment : String) (log0 : String) :
    Option Metadata × String :=
  if writeOk then
    let prevLogLength := log0.data.length
    let log1 := log0 ++ segment
    let slice := String.mk (log1.data.drop prevLogLength)
    (some (parseMetadata slice), log1)
  else (none, log0)

/-- getMediaMetadata from ffmpeg-utils.js lines 200-225: exec the probe (which
appends the given segment to the shared log) and parse the whole accumulated
log text, recording no offset.  Returns the metadata and the final log. -/
def getMediaMetadata (segment : String) (log0 : String) : Metadata × String :=
  let log1 := log0 ++ segment
  (parseMetadata log1, log1)

/-- Sample format profile used as witness input (an entry of the formatConfig
table documented in the repository). -/
def mp3Config : FormatConfig := ⟨"mp3", "libmp3lame", true⟩

/-- Sample lossless format profile used as witness input. -/
def wavConfig : FormatConfig := ⟨"wav", "pcm_s16le", false⟩

/-- Sample failure-free fate used as witness input. -/
def sampleFate : Fate := ⟨true, true, false, true⟩

/-- Sample input file used as witness input. -/
def sampleFile : JsFile := ⟨"song.mp3", "audio/mpeg"⟩

/-! Helper lemmas shared by several claim theorems. -/

theorem lastDotIdx_eq_none {l : List Char} (h : '.' ∉ l) : lastDotIdx l = none := by
  induction l with
  | nil => rfl
  | cons c cs ih =>
    rw [List.mem_cons, not_or] at h
    unfold lastDotIdx
    rw [ih h.2]
    simp [Ne.symm h.1]

theorem data_append (s t : String) : (s ++ t).data = s.data ++ t.data := rfl

theorem prefix_append_ne {p u : String} (h : u.length < p.length) (e : String) :
    p ++ e ≠ u := by
  intro hh
  have h2 := congrArg String.length hh
  rw [String.length_append] at h2
  omega

theorem input_ne_output (a b : String) : "input." ++ a ≠ "output." ++ b := by
  intro h
  have h2 : ("input." ++ a).data = ("output." ++ b).data := by rw [h]
  rw [data_append, data_append] at h2
  have h3 : ("input." : String).data = ['i', 'n', 'p', 'u', 't', '.'] := rfl
  have h4 : ("output." : String).data = ['o', 'u', 't', 'p', 'u', 't', '.'] := rfl
  rw [h3, h4] at h2
  simp only [List.cons_append] at h2
  injection h2 with hx _
  exact absurd hx (by decide)

/-- C9: parseMetadata is total, returns the all-unknown record on the empty
string, extracts the four fields independently of one another, and on the
sample log slice returns the expected duration, sample rate, channels and
bitrate values. -/
theorem claim_C9_parseMetadata_total :
    parseMetadata "" = ⟨unknownField, unknownField, unknownField, unknownField⟩ ∧
    parseMetadata "Duration: 00:03:21.45, ... 44100 Hz, stereo, 192 kbps"
      = ⟨"00:03:21.45", "44100 Hz", "stereo", "192 kbps"⟩ ∧
    (∀ logs : String, parseMetadata logs
      = ⟨durationField logs, sampleRateField logs, channelsField logs,
          bitrateField logs⟩) := by
  refine ⟨by decide, by decide, ?_⟩
  intro logs
  unfold parseMetadata durationField sampleRateField channelsField bitrateField
  cases scanFor matchDurationAt logs.data <;>
    cases scanFor matchHzAt logs.data <;>
      cases scanFor matchChannelsAt logs.data <;>
        cases scanFor matchKbpsAt logs.data <;> rfl

/-- C10: on a filename with no dot, getFileExtension returns the whole name
lowercased; consequently isAudioFile accepts a dotless file whose whole name is
a supported extension, and accepts any file whose MIME type starts with the
audio prefix regardless of its name. -/
theorem claim_C10_dotless_extension :
    (∀ name : String, '.' ∉ name.data → getFileExtension name = toLowerStr name) ∧
    (∀ t : String, isAudioFile ⟨"mp3", t⟩ = true) ∧
    (∀ f : JsFile, startsWithStr "audio/" f.type = true → isAudioFile f = true) := by
  refine ⟨?_, ?_, ?_⟩
  · intro name h
    unfold getFileExtension toLowerStr
    rw [lastDotIdx_eq_none h]
    simp
  · intro t
    unfold isAudioFile
    have h : validExtensions.contains (toLowerStr (getFileExtension "mp3")) = true := by
      decide
    rw [h, Bool.true_or]
  · intro f h
    unfold isAudioFile
    rw [h, Bool.or_true]

/-- C10 witness: the dotless name mp3 and an audio MIME type with an alien
extension, at concrete inputs. -/
theorem claim_C10_dotless_extension_witness :
    ('.' ∉ ("mp3" : String).data ∧ getFileExtension "mp3" = toLowerStr "mp3") ∧
    (startsWithStr "audio/" "audio/mpeg" = true ∧
      isAudioFile ⟨"noext", "audio/mpeg"⟩ = true) :=
  ⟨⟨by decide, claim_C10_dotless_extension.1 "mp3" (by decide)⟩,
   ⟨by decide, claim_C10_dotless_extension.2.2 ⟨"noext", "audio/mpeg"⟩ (by decide)⟩⟩

/-- C2: compressMultipleFiles is a total function (the model never throws);
every input file lands in exactly one of the two lists, the two lengths add up
to the number of inputs, and each list preserves the relative input order
(each equals the filter of the inputs by the outcome of their single
attempt). -/
theorem claim_C2_batch_partition (att : JsFile → Nat → Except String String)
    (files : List JsFile) :
    (compressMultipleFiles att files).results.length
        + (compressMultipleFiles att files).errors.length = files.length ∧
    (compressMultipleFiles att files).results.map BatchItem.file
      = (files.filter (fun f => attemptOk (att f 0))).map JsFile.name ∧
    (compressMultipleFiles att files).errors.map BatchItem.file
      = (files.filter (fun f => !attemptOk (att f 0))).map JsFile.name := by
  induction files with
  | nil => simp [compressMultipleFiles]
  | cons f fs ih =>
    obtain ⟨ih1, ih2, ih3⟩ := ih
    cases h : att f 0 with
    | ok r =>
      refine ⟨?_, ?_, ?_⟩ <;>
        simp [compressMultipleFiles, h, attemptOk, ih1, ih2, ih3]
      omega
    | error e =>
      refine ⟨?_, ?_, ?_⟩ <;>
        simp [compressMultipleFiles, h, attemptOk, ih1, ih2, ih3]
      omega

/-- C4: with an underlying conversion that fails exactly twice and then
succeeds, maxRetries two yields the success after three attempts and
maxRetries one fails with the second error after exactly two attempts; in
general at most maxRetries plus one attempts are ever made. -/
theorem claim_C4_retry_bound :
    (∀ (att : Nat → Except String String) (e0 e1 r : String),
        att 0 = .error e0 → att 1 = .error e1 → att 2 = .ok r →
        compressSingleFileWithRetry att 2 = (.ok r, 3) ∧
        compressSingleFileWithRetry att 1 = (.error e1, 2)) ∧
    (∀ (att : Nat → Except String String) (m : Nat),
        (compressSingleFileWithRetry att m).2 ≤ m + 1) := by
  constructor
  · intro att e0 e1 r h0 h1 h2
    constructor
    · simp [compressSingleFileWithRetry, h0, h1, h2]
    · simp [compressSingleFileWithRetry, h0, h1]
  · intro att m
    induction m generalizing att with
    | zero => simp [compressSingleFileWithRetry]
    | succ n ih =>
      cases h : att 0 with
      | ok r => simp [compressSingleFileWithRetry, h]
      | error e =>
        simp only [compressSingleFileWithRetry, h]
        have := ih (fun k => att (k + 1))
        omega

/-- Concrete attempt oracle failing twice then succeeding, used as witness
input. -/
def sampleAttempts : Nat → Except String String :=
  fun k => if k = 0 then .error "e0" else if k = 1 then .error "e1" else .ok "r"

/-- C4 witness: the retry bound theorem applied to the concrete oracle that
fails exactly twice and then succeeds. -/
theorem claim_C4_retry_bound_witness :
    sampleAttempts 0 = .error "e0" ∧ sampleAttempts 1 = .error "e1" ∧
    sampleAttempts 2 = .ok "r" ∧
    (compressSingleFileWithRetry sampleAttempts 2 = (.ok "r", 3) ∧
      compressSingleFileWithRetry sampleAttempts 1 = (.error "e1", 2)) :=
  ⟨rfl, rfl, rfl,
    claim_C4_retry_bound.1 sampleAttempts "e0" "e1" "r" rfl rfl rfl⟩

/-- Concrete input files used in counterexamples and witnesses. -/
def fileA : JsFile := ⟨"a.mp3", "audio/mpeg"⟩

/-- Second concrete input file, distinct from fileA but with the same
extension. -/
def fileB : JsFile := ⟨"b.mp3", "audio/mpeg"⟩

/-- Per-file attempt oracle whose first attempt always fails and whose later
attempts succeed, used to separate the batch path from the retry path. -/
def failThenOk : JsFile → Nat → Except String String :=
  fun _ k => if k = 0 then .error "boom" else .ok "ok"

/-- C6 counterexample: the batch records the only job into the errors list
after a single failing attempt even though the retrying operation with the
default retry budget of two succeeds on the same per-attempt outcomes, so a
job is not recorded into failures only after the retry policy is exhausted:
compressMultipleFiles calls compressSingleFile, not the retry wrapper. -/
theorem claim_C6_counterexample :
    (compressMultipleFiles failThenOk [fileA]).errors = [⟨"a.mp3", "boom"⟩] ∧
    (compressMultipleFiles failThenOk [fileA]).results = [] ∧
    (compressSingleFileWithRetry (failThenOk fileA) 2).1 = .ok "ok" :=
  ⟨rfl, rfl, rfl⟩

/-- C6 amended: each job in the batch gets exactly one unretried attempt of
compressSingleFile; a failure is recorded into the errors list and processing
continues with the remaining jobs, and the whole batch result depends only on
each file's first attempt. -/
theorem claim_C6_single_attempt_continues :
    (∀ (att : JsFile → Nat → Except String String) (f : JsFile)
        (fs : List JsFile) (r : String),
        att f 0 = .ok r →
        compressMultipleFiles att (f :: fs)
          = ⟨⟨f.name, r⟩ :: (compressMultipleFiles att fs).results,
              (compressMultipleFiles att fs).errors⟩) ∧
    (∀ (att : JsFile → Nat → Except String String) (f : JsFile)
        (fs : List JsFile) (e : String),
        att f 0 = .error e →
        compressMultipleFiles att (f :: fs)
          = ⟨(compressMultipleFiles att fs).results,
              ⟨f.name, e⟩ :: (compressMultipleFiles att fs).errors⟩) ∧
    (∀ att att2 : JsFile → Nat → Except String String,
        (∀ g, att g 0 = att2 g 0) →
        ∀ files, compressMultipleFiles att files = compressMultipleFiles att2 files) := by
  refine ⟨?_, ?_, ?_⟩
  · intro att f fs r h
    simp [compressMultipleFiles, h]
  · intro att f fs e h
    simp [compressMultipleFiles, h]
  · intro att att2 h files
    induction files with
    | nil => rfl
    | cons f fs ih =>
      cases h2 : att2 f 0 <;> simp [compressMultipleFiles, h f, h2, ih]

/-- C6 witness: the amended theorem applied to a concrete failing first
attempt in a two-file batch, showing the failure is recorded and the next job
still runs. -/
theorem claim_C6_single_attempt_continues_witness :
    failThenOk fileB 0 = .error "boom" ∧
    compressMultipleFiles failThenOk [fileB, fileA]
      = ⟨(compressMultipleFiles failThenOk [fileA]).results,
          ⟨fileB.name, "boom"⟩ :: (compressMultipleFiles failThenOk [fileA]).errors⟩ :=
  ⟨rfl, claim_C6_single_attempt_continues.2.1 failThenOk fileB [fileA] "boom" rfl⟩

/-- C8 counterexample: two distinct jobs whose input files share an extension
get identical engine input buffer names, so the names are fixed per extension
rather than unique and job-scoped. -/
theorem claim_C8_counterexample :
    fileA ≠ fileB ∧ inputNameOf fileA = inputNameOf fileB ∧
    inputNameOf fileA = "input.mp3" := by
  decide

/-- C8 amended: the engine buffer names are fixed and extension-scoped rather
than job-unique: any two jobs whose input files share an extension get the
same input key, and any two jobs with the same target container extension get
the same output key. -/
theorem claim_C8_fixed_names :
    (∀ f g : JsFile, getFileExtension f.name = getFileExtension g.name →
        inputNameOf f = inputNameOf g) ∧
    (∀ c d : FormatConfig, c.ext = d.ext → outputNameOf c = outputNameOf d) := by
  constructor <;> intro x y h <;> simp [inputNameOf, outputNameOf, h]

/-- C8 witness: the amended theorem applied to the two concrete files that
share the mp3 extension. -/
theorem claim_C8_fixed_names_witness :
    getFileExtension fileA.name = getFileExtension fileB.name ∧
    inputNameOf fileA = inputNameOf fileB :=
  ⟨by decide, claim_C8_fixed_names.1 fileA fileB (by decide)⟩

/-- C7 counterexample: getMediaMetadata parses a duration out of log text that
was already in the stream before its own engine invocation, so this path passes
the whole accumulated log to the extractor rather than only the newly appended
slice, refuting the claim for the ffmpeg-utils code path. -/
theorem claim_C7_counterexample :
    (getMediaMetadata "no new info" "Duration: 00:11:22.33 older").1
      ≠ parseMetadata "no new info" := by
  decide

/-- C7 amended: the file-handler path parseAudioMetadata records the log
length immediately before the probe and passes exactly the newly appended
segment to the extractor, while the ffmpeg-utils path getMediaMetadata passes
the entire accumulated log. -/
theorem claim_C7_metadata_slicing :
    ∀ segment log0 : String,
      (parseAudioMetadata true segment log0).1 = some (parseMetadata segment) ∧
      (parseAudioMetadata true segment log0).2 = log0 ++ segment ∧
      (getMediaMetadata segment log0).1 = parseMetadata (log0 ++ segment) := by
  intro segment log0
  refine ⟨?_, rfl, rfl⟩
  show some (parseMetadata (String.mk ((log0 ++ segment).data.drop log0.data.length)))
    = some (parseMetadata segment)
  rw [data_append, List.drop_left]

/-- C5 counterexample: for an mp3 target with a bitrate option, the command
built by convertAudioFormat places the bitrate argument before the codec
selector, so it differs from the fixed order the claim states for both code
paths. -/
theorem claim_C5_counterexample :
    convertCommand "mp3" mp3Config "input.wav" "output.mp3"
        ⟨none, none, some "128k", none⟩
      ≠ claimOrderConvertCommand "mp3" mp3Config "input.wav" "output.mp3"
          ⟨none, none, some "128k", none⟩ := by
  decide

/-- C5 amended: the compressSingleFile path builds its command exactly in the
claimed fixed order, while the convertAudioFormat path matches the claimed
order precisely when no bitrate argument is emitted; when one is emitted it
comes before the codec selector instead of after it. -/
theorem claim_C5_command_order :
    (∀ (fmtId : String) (cfg : FormatConfig) (iN oN ac ar ba : String),
        compressCommand fmtId cfg iN oN ac ar ba
          = claimOrderCompressCommand fmtId cfg iN oN ac ar ba) ∧
    (∀ (tF : String) (cfg : FormatConfig) (iN oN : String) (o : ConvOptions),
        convertCommand tF cfg iN oN o = claimOrderConvertCommand tF cfg iN oN o
          ↔ (truthy o.bitrate && cfg.supportsBitrate) = false) := by
  constructor
  · intro fmtId cfg iN oN ac ar ba
    rfl
  · intro tF cfg iN oN o
    constructor
    · intro heq
      by_contra hb
      rw [Bool.not_eq_false, Bool.and_eq_true] at hb
      unfold convertCommand claimOrderConvertCommand at heq
      rw [if_pos hb] at heq
      simp only [List.append_assoc, List.cons_append, List.nil_append] at heq
      injection heq with h1 heq
      injection heq with h2 heq
      have h3 := List.append_cancel_left heq
      have h4 := List.append_cancel_left h3
      injection h4 with h5 _
      exact absurd h5 (by decide)
    · intro h
      have hcond : ¬(truthy o.bitrate = true ∧ cfg.supportsBitrate = true) := by
        rw [← Bool.and_eq_true]
        simp [h]
      unfold convertCommand claimOrderConvertCommand
      rw [if_neg hcond]
      simp


/-! Helper lemmas for non-membership in the command vectors. -/

theorem not_mem_append2 {α : Type} {x : α} {l1 l2 : List α}
    (h1 : x ∉ l1) (h2 : x ∉ l2) : x ∉ l1 ++ l2 := by
  rw [List.mem_append]
  exact fun h => h.elim h1 h2

theorem not_mem_pair {α : Type} {x a b : α} (h1 : x ≠ a) (h2 : x ≠ b) :
    x ∉ [a, b] := by
  intro h
  rcases List.mem_cons.mp h with h | h
  · exact h1 h
  · rw [List.mem_singleton] at h
    exact h2 h

theorem not_mem_single {α : Type} {x a : α} (h : x ≠ a) : x ∉ [a] := by
  intro hh
  rw [List.mem_singleton] at hh
  exact h hh

theorem not_mem_ite_pair {c : Prop} [Decidable c] {α : Type} {x a b : α}
    (h1 : x ≠ a) (h2 : x ≠ b) : x ∉ (if c then [a, b] else []) := by
  split
  · exact not_mem_pair h1 h2
  · exact List.not_mem_nil x

theorem not_mem_ite_of_neg {c : Prop} [Decidable c] {α : Type} {x : α}
    {l : List α} (hc : ¬c) : x ∉ (if c then l else []) := by
  rw [if_neg hc]
  exact List.not_mem_nil x

theorem not_mem_ite_ite_pair {c d : Prop} [Decidable c] [Decidable d]
    {α : Type} {x a b e f : α} (h1 : x ≠ a) (h2 : x ≠ b) (h3 : x ≠ e)
    (h4 : x ≠ f) : x ∉ (if c then [a, b] else if d then [e, f] else []) := by
  split
  · exact not_mem_pair h1 h2
  · split
    · exact not_mem_pair h3 h4
    · exact List.not_mem_nil x

/-- C3: when the resolved profile has supportsBitrate false, neither command
builder ever emits the bitrate flag (under the non-degenerate assumption that
none of the caller-supplied option strings is itself that flag), and in both
paths the command is identical to the one built with the bitrate option
cleared: the drop is enforced by the orchestrator, not the caller. -/
theorem claim_C3_bitrate_dropped (fmtId tF : String) (cfg : FormatConfig)
    (e1 e2 ac ar ba : String) (o : ConvOptions)
    (hsb : cfg.supportsBitrate = false)
    (hac : ac ≠ "-b:a") (har : ar ≠ "-b:a") (hcodec : cfg.codec ≠ "-b:a")
    (hch : o.channels ≠ some "-b:a") (hsr : o.samplerate ≠ some "-b:a")
    (hcl : o.compressionLevel ≠ some "-b:a") :
    "-b:a" ∉ compressCommand fmtId cfg ("input." ++ e1) ("output." ++ cfg.ext) ac ar ba ∧
    "-b:a" ∉ convertCommand tF cfg ("input." ++ e2) ("output." ++ cfg.ext) o ∧
    compressCommand fmtId cfg ("input." ++ e1) ("output." ++ cfg.ext) ac ar ba
      = compressCommand fmtId cfg ("input." ++ e1) ("output." ++ cfg.ext) ac ar "" ∧
    convertCommand tF cfg ("input." ++ e2) ("output." ++ cfg.ext) o
      = convertCommand tF cfg ("input." ++ e2) ("output." ++ cfg.ext)
          { o with bitrate := none } := by
  have hin1 : ("-b:a" : String) ≠ "input." ++ e1 :=
    Ne.symm (prefix_append_ne (by decide) e1)
  have hin2 : ("-b:a" : String) ≠ "input." ++ e2 :=
    Ne.symm (prefix_append_ne (by decide) e2)
  have hout : ("-b:a" : String) ≠ "output." ++ cfg.ext :=
    Ne.symm (prefix_append_ne (by decide) cfg.ext)
  have hch2 : ("-b:a" : String) ≠ o.channels.getD "" := by
    cases hc : o.channels with
    | none => decide
    | some s =>
      intro hh
      exact hch (by rw [hc, show s = "-b:a" from hh.symm])
  have hsr2 : ("-b:a" : String) ≠ o.samplerate.getD "" := by
    cases hc : o.samplerate with
    | none => decide
    | some s =>
      intro hh
      exact hsr (by rw [hc, show s = "-b:a" from hh.symm])
  have hcl2 : ("-b:a" : String) ≠ orDefault o.compressionLevel "5" := by
    cases hc : o.compressionLevel with
    | none => decide
    | some s =>
      show ("-b:a" : String) ≠ if s = "" then "5" else s
      by_cases he : s = ""
      · rw [if_pos he]
        decide
      · rw [if_neg he]
        intro hh
        exact hcl (by rw [hc, show s = "-b:a" from hh.symm])
  have hbit : ¬(ba ≠ "" ∧ cfg.supportsBitrate = true) := by
    rw [hsb]
    rintro ⟨-, hh⟩
    exact absurd hh (by decide)
  have hbit2 : ¬(truthy o.bitrate = true ∧ cfg.supportsBitrate = true) := by
    rw [hsb]
    rintro ⟨-, hh⟩
    exact absurd hh (by decide)
  refine ⟨?_, ?_, ?_, ?_⟩
  · unfold compressCommand
    exact not_mem_append2 (not_mem_append2 (not_mem_append2 (not_mem_append2
      (not_mem_append2 (not_mem_append2
        (not_mem_pair (by decide) hin1)
        (not_mem_ite_pair (by decide) (Ne.symm hac)))
        (not_mem_ite_pair (by decide) (Ne.symm har)))
        (not_mem_pair (by decide) (Ne.symm hcodec)))
        (not_mem_ite_of_neg hbit))
        (not_mem_ite_ite_pair (by decide) (by decide) (by decide) (by decide)))
        (not_mem_single hout)
  · unfold convertCommand
    exact not_mem_append2 (not_mem_append2 (not_mem_append2 (not_mem_append2
      (not_mem_append2 (not_mem_append2
        (not_mem_pair (by decide) hin2)
        (not_mem_ite_pair (by decide) hch2))
        (not_mem_ite_pair (by decide) hsr2))
        (not_mem_ite_of_neg hbit2))
        (not_mem_pair (by decide) (Ne.symm hcodec)))
        (not_mem_ite_ite_pair (by decide) hcl2 (by decide) (by decide)))
        (not_mem_single hout)
  · unfold compressCommand
    rw [hsb]
    simp
  · unfold convertCommand
    rw [hsb]
    simp

/-- C3 witness: a WAV target job with a caller-supplied bitrate, at concrete
inputs. -/
theorem claim_C3_bitrate_dropped_witness :
    (wavConfig.supportsBitrate = false ∧ ("2" : String) ≠ "-b:a" ∧
      ("44100" : String) ≠ "-b:a" ∧ wavConfig.codec ≠ "-b:a" ∧
      (some "2" : Option String) ≠ some "-b:a" ∧
      (some "44100" : Option String) ≠ some "-b:a" ∧
      (none : Option String) ≠ some "-b:a") ∧
    ("-b:a" ∉ compressCommand "wav" wavConfig ("input." ++ "mp3")
        ("output." ++ wavConfig.ext) "2" "44100" "128k" ∧
      "-b:a" ∉ convertCommand "wav" wavConfig ("input." ++ "mp3")
        ("output." ++ wavConfig.ext) ⟨some "2", some "44100", some "128k", none⟩ ∧
      compressCommand "wav" wavConfig ("input." ++ "mp3")
          ("output." ++ wavConfig.ext) "2" "44100" "128k"
        = compressCommand "wav" wavConfig ("input." ++ "mp3")
            ("output." ++ wavConfig.ext) "2" "44100" "" ∧
      convertCommand "wav" wavConfig ("input." ++ "mp3")
          ("output." ++ wavConfig.ext) ⟨some "2", some "44100", some "128k", none⟩
        = convertCommand "wav" wavConfig ("input." ++ "mp3")
            ("output." ++ wavConfig.ext)
            { (⟨some "2", some "44100", some "128k", none⟩ : ConvOptions) with
                bitrate := none }) :=
  ⟨⟨rfl, by decide, by decide, by decide, by decide, by decide, by decide⟩,
    claim_C3_bitrate_dropped "wav" "wav" wavConfig "mp3" "mp3" "2" "44100" "128k"
      ⟨some "2", some "44100", some "128k", none⟩ rfl (by decide) (by decide)
      (by decide) (by decide) (by decide) (by decide)⟩

/-- Core cleanup lemma: for every failure fate, a job run started on a
workspace containing neither of its two buffer names restores the workspace
exactly (no buffer attributable to the job remains), and the trace contains
exactly one cleanup pass: its deleteFile calls are the input name followed by
the output name, or the input name alone when the first deleteFile raised. -/
theorem engineJobRun_drains (fate : Fate) (inN outN : String)
    (argv : List String) (ws : List String) (hne : inN ≠ outN)
    (hIn : inN ∉ ws) (hOut : outN ∉ ws) :
    (engineJobRun fate inN outN argv ws).2.1 = ws ∧
    ((engineJobRun fate inN outN argv ws).2.2.filter isDeleteEvent
        = [.deleteFile inN, .deleteFile outN] ∨
      (engineJobRun fate inN outN argv ws).2.2.filter isDeleteEvent
        = [.deleteFile inN]) := by
  have hne2 : outN ≠ inN := Ne.symm hne
  have hOutIn : outN ∉ inN :: ws := by
    rw [List.mem_cons, not_or]
    exact ⟨hne2, hOut⟩
  have hInIn : inN ∈ inN :: ws := List.mem_cons_self _ _
  have hInIn2 : inN ∈ outN :: inN :: ws := List.mem_cons_of_mem _ hInIn
  have e1 : (inN :: ws).erase inN = ws := List.erase_cons_head _ _
  have e2 : ((inN :: ws).erase inN).erase outN = ws := by
    rw [e1]
    exact List.erase_of_not_mem hOut
  have e3 : ((outN :: inN :: ws).erase inN).erase outN = ws := by
    rw [List.erase_cons_tail (by simpa using hne2), e1, List.erase_cons_head]
  obtain ⟨w, e, p, r⟩ := fate
  cases w
  · refine ⟨?_, Or.inr ?_⟩ <;>
      simp [engineJobRun, bodyPhase, cleanupPhase, hIn, isDeleteEvent]
  · cases e
    · cases p
      · refine ⟨?_, Or.inl ?_⟩ <;>
          simp [engineJobRun, bodyPhase, cleanupPhase, hIn, hOut, hInIn, e2,
            isDeleteEvent]
      · refine ⟨?_, Or.inl ?_⟩ <;>
          simp [engineJobRun, bodyPhase, cleanupPhase, hIn, hOut, hOutIn,
            hInIn2, e3, isDeleteEvent]
    · cases r <;> refine ⟨?_, Or.inl ?_⟩ <;>
        simp [engineJobRun, bodyPhase, cleanupPhase, hIn, hOut, hOutIn, hInIn2,
          e3, isDeleteEvent]

/-- C1: for every job (either code path, any input file, any target profile,
any options) and every combination of engine failures, started on a workspace
holding neither of its buffer names, the run leaves the workspace exactly as
it found it — the input and output buffer names are both absent after the
result or error is produced — and the cleanup pass happens exactly once: the
deleteFile calls in the trace are precisely the one cleanup block. -/
theorem claim_C1_cleanup_drains (fate : Fate) (file : JsFile)
    (fmtId tF : String) (cfg : FormatConfig) (ac ar ba : String)
    (o : ConvOptions) (ws : List String)
    (hIn : inputNameOf file ∉ ws) (hOut : outputNameOf cfg ∉ ws) :
    ((compressSingleFile fate file fmtId cfg ac ar ba ws).2.1 = ws ∧
      ((compressSingleFile fate file fmtId cfg ac ar ba ws).2.2.filter isDeleteEvent
          = [.deleteFile (inputNameOf file), .deleteFile (outputNameOf cfg)] ∨
        (compressSingleFile fate file fmtId cfg ac ar ba ws).2.2.filter isDeleteEvent
          = [.deleteFile (inputNameOf file)])) ∧
    ((convertAudioFormat fate file tF cfg o ws).2.1 = ws ∧
      ((convertAudioFormat fate file tF cfg o ws).2.2.filter isDeleteEvent
          = [.deleteFile (inputNameOf file), .deleteFile (outputNameOf cfg)] ∨
        (convertAudioFormat fate file tF cfg o ws).2.2.filter isDeleteEvent
          = [.deleteFile (inputNameOf file)])) := by
  have hne : inputNameOf file ≠ outputNameOf cfg :=
    input_ne_output (getFileExtension file.name) cfg.ext
  exact ⟨engineJobRun_drains fate _ _ _ ws hne hIn hOut,
    engineJobRun_drains fate _ _ _ ws hne hIn hOut⟩

/-- C1 witness: a concrete mp3 job run on the empty workspace with an exec
failure that leaves a partial output buffer, through both code paths. -/
theorem claim_C1_cleanup_drains_witness :
    (inputNameOf sampleFile ∉ ([] : List String) ∧
      outputNameOf mp3Config ∉ ([] : List String)) ∧
    (((compressSingleFile ⟨true, false, true, true⟩ sampleFile "mp3" mp3Config
          "" "" "128k" []).2.1 = [] ∧
      ((compressSingleFile ⟨true, false, true, true⟩ sampleFile "mp3" mp3Config
            "" "" "128k" []).2.2.filter isDeleteEvent
          = [.deleteFile (inputNameOf sampleFile),
              .deleteFile (outputNameOf mp3Config)] ∨
        (compressSingleFile ⟨true, false, true, true⟩ sampleFile "mp3" mp3Config
            "" "" "128k" []).2.2.filter isDeleteEvent
          = [.deleteFile (inputNameOf sampleFile)])) ∧
    ((convertAudioFormat ⟨true, false, true, true⟩ sampleFile "mp3" mp3Config
          ⟨none, none, some "128k", none⟩ []).2.1 = [] ∧
      ((convertAudioFormat ⟨true, false, true, true⟩ sampleFile "mp3" mp3Config
            ⟨none, none, some "128k", none⟩ []).2.2.filter isDeleteEvent
          = [.deleteFile (inputNameOf sampleFile),
              .deleteFile (outputNameOf mp3Config)] ∨
        (convertAudioFormat ⟨true, false, true, true⟩ sampleFile "mp3" mp3Config
            ⟨none, none, some "128k", none⟩ []).2.2.filter isDeleteEvent
          = [.deleteFile (inputNameOf sampleFile)]))) :=
  ⟨⟨by decide, by decide⟩,
    claim_C1_cleanup_drains ⟨true, false, true, true⟩ sampleFile "mp3" "mp3"
      mp3Config "" "" "128k" ⟨none, none, some "128k", none⟩ []
      (by decide) (by decide)⟩
